import Mathlib

/-!
# Verification of the vite-plugin-import-map Import Stabilization Engine

Shallow embedding of `src/index.ts` of the `vite-plugin-import-map`
repository. The plugin's `generateBundle` hook runs four passes over a
Rollup output bundle:

1. count base names (conflict detection),
2. build the chunk mapping (alias → stable specifier) and the import map,
3. parse each script chunk with Acorn, rewrite candidate import/export
   specifiers to stable specifiers, recompute the content hash and stage a
   rename,
4. commit the staged renames to the bundle and update the import map.

`transformIndexHtml` then sorts the import-map entries and emits them.

External collaborators are modelled as explicit function parameters:

* `digest : String → String` abstracts `cryptoCreateHash('sha256')
  .update(input,'utf8').digest('base64url')` — the full (untruncated)
  base64url digest string.  The plugin's `computeHash` truncates it with
  `.slice(0, 8)`, which is modelled concretely.
* `parse : String → Except String (List RefNode)` abstracts
  `acorn.Parser.parse` plus the `acorn-walk` traversal: on success it yields
  the reference-site nodes the walker visits (in traversal order), on
  failure the stringified parse error.
* `genMap : String → String → Option String` abstracts
  `magicString.generateMap` plus the source-map merge (the `try` block at
  lines 205–225); `none` models the caught regeneration failure, in which
  case the chunk keeps its old map.
* `localeCompare : String → String → Int` abstracts JavaScript's
  `String.prototype.localeCompare` under the host's current locale (only the
  sign of the result is meaningful, as for a JS sort comparator).

Strings are modelled at character granularity (Acorn offsets are UTF-16
code units; for the code points used here the two coincide).  JavaScript
`Map` objects and plain string-keyed objects are modelled as association
lists with insert-or-overwrite-in-place semantics (`aset`), which preserves
the insertion order that `Object.entries` exposes.
-/

namespace VitePluginImportMap

/-! ## Association maps (JS `Map` / string-keyed object model) -/

/-- Lookup in an association list (first binding wins; `aset` keeps keys
unique, mirroring a JS `Map`/object). -/
def aget {α : Type} : List (String × α) → String → Option α
  | [], _ => none
  | (k, v) :: m, key => if k = key then some v else aget m key

/-- Insert-or-overwrite, preserving the position of an existing key, else
appending — JS `Map.set` / `obj[key] = v` semantics. -/
def aset {α : Type} : List (String × α) → String → α → List (String × α)
  | [], key, val => [(key, val)]
  | (k, v) :: m, key, val =>
    if k = key then (key, val) :: m else (k, v) :: aset m key val

/-- Key removal — JS `delete obj[key]` semantics. -/
def adel {α : Type} (m : List (String × α)) (key : String) : List (String × α) :=
  m.filter (fun p => p.1 ≠ key)

/-- Model of `baseNameCounts.get(name) || 0`. -/
def countGet (m : List (String × Nat)) (key : String) : Nat :=
  (aget m key).getD 0

/-- Alias map / import map: string keys to string values. -/
abbrev SMap := List (String × String)

/-- Base-name count table. -/
abbrev NMap := List (String × Nat)

/-! ## String utilities (character-granularity models of the JS operations) -/

/-- Model of JS `s.split(sep)` for a single-character separator. -/
def splitChar (sep : Char) : List Char → List (List Char)
  | [] => [[]]
  | c :: cs =>
    match splitChar sep cs with
    | [] => [[]]
    | g :: gs => if c = sep then [] :: g :: gs else (c :: g) :: gs

/-- Model of JS `parts.join(sep)` for a single-character separator. -/
def joinChar (sep : Char) : List (List Char) → List Char
  | [] => []
  | [g] => g
  | g :: gs => g ++ sep :: joinChar sep gs

/-- Model of JS `s.startsWith(p)`. -/
def strStartsWith (s p : String) : Bool :=
  p.data.isPrefixOf s.data

/-- Model of JS `s.endsWith(p)`. -/
def strEndsWith (s p : String) : Bool :=
  p.data.isSuffixOf s.data

/-- Model of JS `s.includes(c)` for a single character. -/
def strContainsChar (s : String) (c : Char) : Bool :=
  s.data.contains c

/-- Model of JS `s.split('/').pop()` (the last path segment, splitting
unconditionally). -/
def popSegment (s : String) : String :=
  ⟨(splitChar '/' s.data).getLastD []⟩

/-- Model of `fileName.includes('/') ? fileName.split('/').pop()! : fileName`. -/
def lastSegment (s : String) : String :=
  if strContainsChar s '/' then popSegment s else s

/-- Model of
`fileName.includes('/') ? fileName.split('/').slice(0,-1).join('/') + '/' + n : n`
(line 189–191). -/
def dirJoin (fileName newFileName : String) : String :=
  if strContainsChar fileName '/' then
    (⟨joinChar '/' ((splitChar '/' fileName.data).dropLast)⟩ : String) ++ "/" ++ newFileName
  else newFileName

/-- Substring test (used to state facts about error messages and code text). -/
def containsSeq (pat : List Char) : List Char → Bool
  | [] => pat.isEmpty
  | c :: cs => pat.isPrefixOf (c :: cs) || containsSeq pat cs

/-! ## computeHash (lines 13–18) -/

/-- The function `computeHash` truncates the (abstracted) base64url sha256 digest with
`.slice(0, 8)`. -/
def computeHash (digest : String → String) (input : String) : String :=
  ⟨(digest input).data.take 8⟩

/-! ## Source-map comment handling (lines 182 and 197–200) -/

/-- The literal `//# sourceMappingURL=` marker. -/
def smMarker : List Char := "//# sourceMappingURL=".data

/-- Truncate a line at the first occurrence of `pat` — the effect of
`line.replace(/pat.*$/, '')`. -/
def truncAt (pat : List Char) : List Char → List Char
  | [] => []
  | c :: cs => if pat.isPrefixOf (c :: cs) then [] else c :: truncAt pat cs

/-- Model of
`transformedCode.replace(/\/\/# sourceMappingURL=.*$/gm, '')`:
every line is truncated at the first source-map-comment marker. -/
def stripSourceMapComments (code : String) : String :=
  ⟨joinChar '\n' ((splitChar '\n' code.data).map (truncAt smMarker))⟩

/-- Model of the JS `\s` class (common subset; the inputs of interest are
ASCII). -/
def isSpaceJS (c : Char) : Bool :=
  c = ' ' || c = '\t' || c = '\n' || c = '\r' || c = '\x0b' || c = '\x0c'

/-- Scan a reversed character run for the longest prefix (of the unreversed
run) that ends in `.map`: the greedy match of `[^\s]+\.map`.  The input is
the reversed run; the result is the length of the matched prefix. -/
def dotMapMatchLenRev : List Char → Option Nat
  | [] => none
  | c :: cs =>
    if ['p', 'a', 'm', '.'].isPrefixOf (c :: cs) ∧ cs.length ≥ 4 then
      some (c :: cs).length
    else dotMapMatchLenRev cs

/-- First-match replacement modelling
`code.replace(/(\/\/# sourceMappingURL=)([^\s]+)(\.map)/, newFileName + '.map')`
(the replacement template is `$1${newFileName}.map`). -/
def replaceMapCommentChars (newFile : List Char) : List Char → List Char
  | [] => []
  | c :: cs =>
    if smMarker.isPrefixOf (c :: cs) then
      let rest := (c :: cs).drop smMarker.length
      let run := rest.takeWhile (fun ch => !isSpaceJS ch)
      match dotMapMatchLenRev run.reverse with
      | some matchedLen =>
          smMarker ++ newFile ++ ".map".data ++ rest.drop matchedLen
      | none => c :: replaceMapCommentChars newFile cs
    else c :: replaceMapCommentChars newFile cs

/-- Model of the source-map-comment rewrite at lines 197–200. -/
def replaceMapComment (code newFileName : String) : String :=
  ⟨replaceMapCommentChars newFileName.data code.data⟩

/-! ## Data model -/

/-- Rollup bundle item kind (`chunk.type`). -/
inductive BundleItemType where
  | chunk
  | asset
deriving DecidableEq, Repr

/-- The fields of a Rollup `OutputChunk` the plugin reads or writes.
`moduleKeys` models `Object.keys(chunk.modules)`; `map` is the attached
source map, kept opaque (serialized). -/
structure OutputChunk where
  itemType : BundleItemType
  name : String
  fileName : String
  code : String
  facadeModuleId : Option String
  moduleIds : List String
  moduleKeys : List String
  map : Option String
deriving DecidableEq, Repr

/-- Resolved plugin configuration: `resolvedAssetsDir` and
`useAbsolutePaths` as seen by `generateBundle`. -/
structure PluginConfig where
  assetsDir : String
  useAbsolutePaths : Bool
deriving DecidableEq, Repr

/-- Plugin options (both optional). -/
structure PluginOptions where
  assetsDir : Option String
  useAbsolutePaths : Option Bool
deriving DecidableEq, Repr

/-- Config resolution: `options?.assetsDir ?? 'assets'`, overridden in
`configResolved` by Vite's `build.assetsDir` when the option is falsy
(lines 26–27 and 38–43); `options?.useAbsolutePaths ?? true`. -/
def resolveConfig (opts : Option PluginOptions) (viteAssetsDir : Option String) : PluginConfig :=
  let assetsDir := (opts.bind (fun o => o.assetsDir)).getD "assets"
  let resolvedAssetsDir :=
    if (opts.bind (fun o => o.assetsDir)).getD "" = "" ∧ viteAssetsDir.getD "" ≠ "" then
      viteAssetsDir.getD ""
    else assetsDir
  { assetsDir := resolvedAssetsDir
    useAbsolutePaths := (opts.bind (fun o => o.useAbsolutePaths)).getD true }

/-- The plugin's closure state (lines 28–32): `chunkMapping`,
`baseNameCounts` and `importMap.imports`.  These are created once per
plugin instance and are *not* cleared between `generateBundle`
invocations. -/
structure PluginState where
  chunkMapping : SMap
  baseNameCounts : NMap
  imports : SMap
deriving DecidableEq, Repr

/-- The state a fresh `importMapPlugin(...)` call creates. -/
def initialPluginState : PluginState :=
  { chunkMapping := [], baseNameCounts := [], imports := [] }

/-! ## Pass 1 (lines 48–54): count base names -/

/-- The filter `chunk.type !== 'chunk' || !fileName.endsWith('.js')`. -/
def isScriptEntry (entry : String × OutputChunk) : Bool :=
  decide (entry.2.itemType = .chunk) && strEndsWith entry.1 ".js"

/-- First pass: bump `baseNameCounts` for every script chunk.  The counts
accumulate on top of whatever the plugin state already holds. -/
def pass1 (counts : NMap) (entries : List (String × OutputChunk)) : NMap :=
  entries.foldl
    (fun m e =>
      if isScriptEntry e then aset m e.2.name (countGet m e.2.name + 1) else m)
    counts

/-! ## Pass 2 (lines 57–99): stable specifiers, chunk mapping, import map -/

/-- Identity source preference (lines 69–79): `facadeModuleId` when truthy,
else `moduleIds[0]`, else the first key of `chunk.modules`, else `''`. -/
def sourcePathOf (chunk : OutputChunk) : String :=
  let facade := chunk.facadeModuleId.getD ""
  if facade ≠ "" then facade
  else
    match chunk.moduleIds with
    | m :: _ => m
    | [] =>
      match chunk.moduleKeys with
      | k :: _ => k
      | [] => ""

/-- Model of `hashInput = sourcePath ? sourcePath + ':' + baseName : baseName`
(line 82). -/
def hashInputOf (chunk : OutputChunk) : String :=
  let sourcePath := sourcePathOf chunk
  if sourcePath ≠ "" then sourcePath ++ ":" ++ chunk.name else chunk.name

/-- Model of `moduleSpec = count > 1 ? baseName-hash : baseName` (line 83). -/
def moduleSpecOf (digest : String → String) (counts : NMap) (chunk : OutputChunk) : String :=
  let count := countGet counts chunk.name
  if count > 1 then chunk.name ++ "-" ++ computeHash digest (hashInputOf chunk)
  else chunk.name

/-- One iteration of the second pass: register the three aliases in the
chunk mapping and the resolution entry in the import map. -/
def pass2step (cfg : PluginConfig) (digest : String → String) (counts : NMap)
    (st : SMap × SMap) (entry : String × OutputChunk) : SMap × SMap :=
  if isScriptEntry entry then
    let fileName := entry.1
    let chunk := entry.2
    let moduleSpec := moduleSpecOf digest counts chunk
    let filenameOnly := lastSegment fileName
    let mapping :=
      aset (aset (aset st.1 fileName moduleSpec) filenameOnly moduleSpec) chunk.name moduleSpec
    let pfx := if cfg.useAbsolutePaths then "/" else "./"
    let imports := aset st.2 moduleSpec (pfx ++ cfg.assetsDir ++ "/" ++ filenameOnly)
    (mapping, imports)
  else st

/-- Second pass over all bundle entries. -/
def pass2 (cfg : PluginConfig) (digest : String → String) (counts : NMap)
    (mapping imports : SMap) (entries : List (String × OutputChunk)) : SMap × SMap :=
  entries.foldl (pass2step cfg digest counts) (mapping, imports)

/-! ## Pass 3 (lines 105–230): rewrite references, rehash, stage renames -/

/-- The `source` field of a reference node as the walker sees it:
a string `Literal` (with its `start`/`end` offsets, which include the
surrounding quote characters, and its cooked string value), some other
expression (a computed dynamic-import source or a non-string literal), or
absent (`ExportNamedDeclaration` without a `from` clause). -/
inductive SourceNode where
  | literalStr (startPos endPos : Nat) (value : String)
  | other
deriving DecidableEq, Repr

/-- The four reference-site shapes the walker visits (lines 157–165). -/
inductive RefKind where
  | importDecl
  | exportNamed
  | exportAll
  | importExpr
deriving DecidableEq, Repr

/-- A reference site in a parsed module. -/
structure RefNode where
  kind : RefKind
  source : Option SourceNode
deriving DecidableEq, Repr

/-- A staged text replacement (`importsToTransform` element): the half-open
character range `[start, stop)` in the original code and the replacement
text. -/
structure RewriteOp where
  start : Nat
  stop : Nat
  replacement : String
deriving DecidableEq, Repr

/-- Model of `handleImportSource` (lines 124–154): accept the specifier only when it
is relative or an assets-directory path, look up its bare filename in the
chunk mapping, and stage a replacement of the quoted contents (excluding
the quotes: `source.start + 1` to `source.end - 1`).  The unresolved-warn
branch (lines 142–144) records nothing. -/
def handleImportSource (assetsDir : String) (mapping : SMap) (node : RefNode) :
    Option RewriteOp :=
  match node.source with
  | none => none
  | some .other => none
  | some (.literalStr startPos endPos value) =>
    if value = "" then none
    else
      let isRelative := strStartsWith value "./"
      let isAbsolute := strStartsWith value ("/" ++ assetsDir ++ "/")
      let isAbsoluteWithDot := strStartsWith value ("./" ++ assetsDir ++ "/")
      if !isRelative && !isAbsolute && !isAbsoluteWithDot then none
      else
        let filename := popSegment value
        match aget mapping filename with
        | none => none
        | some moduleSpec => some ⟨startPos + 1, endPos - 1, moduleSpec⟩

/-- The `acorn-walk` dispatch (lines 157–165): all four shapes call
`handleImportSource`, but an `ImportExpression` only when its source is a
`Literal`. -/
def walkOps (assetsDir : String) (mapping : SMap) (ast : List RefNode) :
    List RewriteOp :=
  ast.filterMap fun node =>
    match node.kind with
    | .importExpr =>
      match node.source with
      | some (.literalStr _ _ _) => handleImportSource assetsDir mapping node
      | _ => none
    | _ => handleImportSource assetsDir mapping node

/-- Stable insertion into a descending/ordered list, for the JS stable
`Array.prototype.sort` with a comparator: `lt b a` means the comparator
puts `b` strictly before `a`. -/
def insertByB {α : Type} (lt : α → α → Bool) (a : α) : List α → List α
  | [] => [a]
  | b :: bs => if lt b a then b :: insertByB lt a bs else a :: b :: bs

/-- Stable sort by a strict comparator (model of JS `Array.sort`). -/
def sortByB {α : Type} (lt : α → α → Bool) (l : List α) : List α :=
  l.foldr (insertByB lt) []

/-- Model of `importsToTransform.sort((a, b) => b.start - a.start)` — descending by
`start` (line 168). -/
def sortOpsDesc (ops : List RewriteOp) : List RewriteOp :=
  sortByB (fun a b => decide (b.start < a.start)) ops

/-- Model of `magicString.overwrite(start, end, replacement)` for non-overlapping
edits applied in descending start order: splice the replacement over the
half-open range. -/
def strSplice (code : String) (start stop : Nat) (repl : String) : String :=
  ⟨code.data.take start ++ repl.data ++ code.data.drop stop⟩

/-- Apply the staged rewrites in descending order of start offset
(lines 167–172). -/
def applyOps (code : String) (ops : List RewriteOp) : String :=
  (sortOpsDesc ops).foldl (fun c op => strSplice c op.start op.stop op.replacement) code

/-- Model of `newFileName = baseName ? baseName + '-' + newHash + '.js' : filenameOnly`
where `newHash` is computed from the rewritten code with source-map
comments stripped (lines 182–188). -/
def rehashedFileName (digest : String → String) (baseName fileName transformedCode : String) :
    String :=
  let codeWithoutSourceMaps := stripSourceMapComments transformedCode
  let newHash := computeHash digest codeWithoutSourceMaps
  let filenameOnly := lastSegment fileName
  if baseName ≠ "" then baseName ++ "-" ++ newHash ++ ".js" else filenameOnly

/-- Per-chunk body of the third pass (lines 105–230).  Returns the updated
chunk and the staged rename, or the fatal parse error.  `genMap` abstracts
the magic-string map regeneration and merge; its failure (the inner
`try`/`catch` at lines 205–225) keeps the old map. -/
def transformChunk (cfg : PluginConfig) (digest : String → String)
    (parse : String → Except String (List RefNode))
    (genMap : String → String → Option String)
    (mapping : SMap) (fileName : String) (chunk : OutputChunk) :
    Except String (OutputChunk × Option (String × String)) :=
  if chunk.itemType ≠ .chunk ∨ chunk.code = "" ∨ strEndsWith fileName ".js" = false then
    .ok (chunk, none)
  else
    match parse chunk.code with
    | .error err => .error ("Error parsing code: " ++ err)
    | .ok ast =>
      let importsToTransform := walkOps cfg.assetsDir mapping ast
      if importsToTransform = [] then .ok (chunk, none)
      else
        let transformedCode := applyOps chunk.code importsToTransform
        let newFileName := rehashedFileName digest chunk.name fileName transformedCode
        let newFilePath := dirJoin fileName newFileName
        let finalCode :=
          if chunk.map.isSome then replaceMapComment transformedCode newFileName
          else transformedCode
        let newMap :=
          if chunk.map.isSome then
            match genMap fileName newFileName with
            | some m => some m
            | none => chunk.map
          else chunk.map
        .ok ({ chunk with code := finalCode, map := newMap }, some (fileName, newFilePath))

/-- Third pass over the captured `bundleEntries`: transform each chunk in
order, aborting the whole pass at the first parse failure (the `throw` at
line 174 propagates out of `generateBundle`). -/
def pass3 (cfg : PluginConfig) (digest : String → String)
    (parse : String → Except String (List RefNode))
    (genMap : String → String → Option String) (mapping : SMap) :
    List (String × OutputChunk) →
    Except String (List (String × OutputChunk) × List (String × String))
  | [] => .ok ([], [])
  | (k, c) :: rest =>
    match transformChunk cfg digest parse genMap mapping k c with
    | .error e => .error e
    | .ok (c', ren) =>
      match pass3 cfg digest parse genMap mapping rest with
      | .error e => .error e
      | .ok (entries', renames) =>
        .ok ((k, c') :: entries',
             match ren with
             | some r => r :: renames
             | none => renames)

/-! ## Pass 4 (lines 232–257): commit renames, update the import map -/

/-- One committed rename: move the chunk to its new key, set its
`fileName`, and update the resolution entry and mapping aliases. -/
def pass4step (cfg : PluginConfig)
    (st : List (String × OutputChunk) × SMap × SMap) (ren : String × String) :
    List (String × OutputChunk) × SMap × SMap :=
  let bundle := st.1
  let mapping := st.2.1
  let imports := st.2.2
  let oldFileName := ren.1
  let newFileName := ren.2
  match aget bundle oldFileName with
  | none => st
  | some chunk =>
    if chunk.itemType ≠ .chunk then st
    else
      let chunk' := { chunk with fileName := newFileName }
      let bundle' := aset (adel bundle oldFileName) newFileName chunk'
      let filenameOnly := lastSegment oldFileName
      match aget mapping filenameOnly with
      | none => (bundle', mapping, imports)
      | some moduleSpec =>
        let newFilenameOnly := lastSegment newFileName
        let pfx := if cfg.useAbsolutePaths then "/" else "./"
        let imports' :=
          aset imports moduleSpec (pfx ++ cfg.assetsDir ++ "/" ++ newFilenameOnly)
        let mapping' :=
          aset (aset (aset mapping newFileName moduleSpec) newFilenameOnly moduleSpec)
            filenameOnly moduleSpec
        (bundle', mapping', imports')

/-- Fourth pass: apply all staged renames in order. -/
def pass4 (cfg : PluginConfig) (bundle : List (String × OutputChunk))
    (mapping imports : SMap) (renames : List (String × String)) :
    List (String × OutputChunk) × SMap × SMap :=
  renames.foldl (pass4step cfg) (bundle, mapping, imports)

/-! ## generateBundle (lines 44–260) -/

/-- The whole `generateBundle` hook: the four passes in order, threading
the closure state.  A parse failure aborts the hook (and hence the build)
with the thrown error; in that case no state survives and no resolution
table is ever emitted. -/
def generateBundle (cfg : PluginConfig) (digest : String → String)
    (parse : String → Except String (List RefNode))
    (genMap : String → String → Option String)
    (st : PluginState) (bundle : List (String × OutputChunk)) :
    Except String (PluginState × List (String × OutputChunk)) :=
  let counts := pass1 st.baseNameCounts bundle
  let p2 := pass2 cfg digest counts st.chunkMapping st.imports bundle
  match pass3 cfg digest parse genMap p2.1 bundle with
  | .error e => .error e
  | .ok (entries, renames) =>
    let p4 := pass4 cfg entries p2.1 p2.2 renames
    .ok ({ chunkMapping := p4.2.1, baseNameCounts := counts, imports := p4.2.2 }, p4.1)

/-! ## transformIndexHtml (lines 261–283) -/

/-- Model of `Object.entries(importMap.imports).sort(([a], [b]) => a.localeCompare(b))`
— a stable sort whose comparator delegates to the host's locale-sensitive
`localeCompare`. -/
def sortEntries (localeCompare : String → String → Int) (imports : SMap) : SMap :=
  sortByB (fun a b => decide (localeCompare a.1 b.1 < 0)) imports

/-- The emitted resolution table: the sorted `imports` object (the injected
tag serializes exactly these entries in this order). -/
def transformIndexHtml (localeCompare : String → String → Int) (imports : SMap) : SMap :=
  sortEntries localeCompare imports

/-- Ascending sortedness of the table keys under a boolean `le`. -/
def keysSortedBy (le : String → String → Bool) : SMap → Bool
  | [] => true
  | [_] => true
  | a :: b :: rest => le a.1 b.1 && keysSortedBy le (b :: rest)

/-- Locale-independent (code-point) lexicographic order on character
lists. -/
def charListLe : List Char → List Char → Bool
  | [], _ => true
  | _ :: _, [] => false
  | a :: as, b :: bs => if a < b then true else if b < a then false else charListLe as bs

/-- Code-point lexicographic order on strings (the locale-independent
comparison of the claim). -/
def lexLe (a b : String) : Bool :=
  charListLe a.data b.data

/-! ## Basic association-map lemmas -/

theorem aget_aset_self {α : Type} (m : List (String × α)) (k : String) (v : α) :
    aget (aset m k v) k = some v := by
  induction m with
  | nil => simp [aset, aget]
  | cons p m ih =>
    by_cases h : p.1 = k
    · simp [aset, aget, h]
    · cases p
      simp_all [aset, aget, h]

theorem aget_aset_ne {α : Type} (m : List (String × α)) (k key : String) (v : α)
    (h : k ≠ key) : aget (aset m k v) key = aget m key := by
  induction m with
  | nil => simp [aset, aget, h]
  | cons p m ih =>
    cases p with
    | mk pk pv =>
      by_cases hp : pk = k
      · simp [aset, aget, hp, h]
      · by_cases hq : pk = key <;> simp [aset, aget, hp, hq, ih, Ne.symm h]

theorem aget_adel_self {α : Type} (m : List (String × α)) (k : String) :
    aget (adel m k) k = none := by
  induction m with
  | nil => simp [adel, aget]
  | cons p m ih =>
    cases p with
    | mk pk pv =>
      by_cases hp : pk = k <;> simp_all [adel, aget, List.filter]

theorem aget_adel_ne {α : Type} (m : List (String × α)) (k key : String)
    (h : k ≠ key) : aget (adel m k) key = aget m key := by
  induction m with
  | nil => simp [adel, aget]
  | cons p m ih =>
    cases p with
    | mk pk pv =>
      by_cases hp : pk = k
      · subst hp
        simp [adel, aget, List.filter, h, Ne.symm h] at ih ⊢
        simpa [adel] using ih
      · by_cases hq : pk = key <;> simp_all [adel, aget, List.filter]

/-! ## Pass-1 counting -/

/-- The number of script entries of a bundle carrying a given base name. -/
def scriptNameCount (entries : List (String × OutputChunk)) (n : String) : Nat :=
  (entries.filter (fun e => isScriptEntry e && decide (e.2.name = n))).length

theorem countGet_pass1 (entries : List (String × OutputChunk)) (counts : NMap) (n : String) :
    countGet (pass1 counts entries) n = countGet counts n + scriptNameCount entries n := by
  induction entries generalizing counts with
  | nil => simp [pass1, scriptNameCount]
  | cons e es ih =>
    by_cases hs : isScriptEntry e = true
    · by_cases hn : e.2.name = n
      · have hstep : countGet (aset counts e.2.name (countGet counts e.2.name + 1)) n =
            countGet counts n + 1 := by
          subst hn
          simp [countGet, aget_aset_self]
        calc countGet (pass1 counts (e :: es)) n
            = countGet (pass1 (aset counts e.2.name (countGet counts e.2.name + 1)) es) n := by
              simp [pass1, hs]
          _ = countGet counts n + 1 + scriptNameCount es n := by rw [ih, hstep]
          _ = countGet counts n + scriptNameCount (e :: es) n := by
              simp [scriptNameCount, List.filter, hs, hn]
              omega
      · have hstep : countGet (aset counts e.2.name (countGet counts e.2.name + 1)) n =
            countGet counts n := by
          simp [countGet, aget_aset_ne _ _ _ _ hn]
        calc countGet (pass1 counts (e :: es)) n
            = countGet (pass1 (aset counts e.2.name (countGet counts e.2.name + 1)) es) n := by
              simp [pass1, hs]
          _ = countGet counts n + scriptNameCount es n := by rw [ih, hstep]
          _ = countGet counts n + scriptNameCount (e :: es) n := by
              simp [scriptNameCount, List.filter, hs, hn]
    · have : pass1 counts (e :: es) = pass1 counts es := by simp [pass1, hs]
      rw [this, ih]
      simp [scriptNameCount, List.filter, hs]

/-! ## String helper lemmas -/

theorem strData_append (a b : String) : (a ++ b).data = a.data ++ b.data := by
  cases a
  cases b
  rfl

theorem strExt {a b : String} (h : a.data = b.data) : a = b := by
  cases a
  cases b
  exact congrArg String.mk h

instance {ε α : Type} [DecidableEq ε] [DecidableEq α] : DecidableEq (Except ε α) :=
  fun x y =>
    match x, y with
    | .ok a, .ok b =>
      if h : a = b then isTrue (by rw [h])
      else isFalse (by intro he; cases he; exact h rfl)
    | .error e, .error f =>
      if h : e = f then isTrue (by rw [h])
      else isFalse (by intro he; cases he; exact h rfl)
    | .ok _, .error _ => isFalse (by intro he; cases he)
    | .error _, .ok _ => isFalse (by intro he; cases he)

/-! ## Test fixtures (concrete inputs used by witnesses and counterexamples) -/

/-- Default configuration: `assetsDir = 'assets'`, absolute paths. -/
def exCfg : PluginConfig := ⟨"assets", true⟩

/-- Parse oracle for code without reference sites. -/
def exParse0 : String → Except String (List RefNode) := fun _ => .ok []

/-- Map-regeneration oracle that always fails (irrelevant for chunks
without maps). -/
def exGenMap0 : String → String → Option String := fun _ _ => none

/-- A chunk with empty code named `a` (the third pass skips it). -/
def exChunkA : OutputChunk :=
  ⟨.chunk, "a", "assets/a-1111.js", "", none, [], [], none⟩

/-- One-chunk bundle for the double-invocation experiment. -/
def exBundleA : List (String × OutputChunk) := [("assets/a-1111.js", exChunkA)]

/-- Plugin state after the first `generateBundle` invocation on
`exBundleA`. -/
def exState1 : PluginState :=
  { chunkMapping := [("assets/a-1111.js", "a"), ("a-1111.js", "a"), ("a", "a")]
    baseNameCounts := [("a", 1)]
    imports := [("a", "/assets/a-1111.js")] }

/-- Plugin state after the second invocation: the base-name count has
climbed to 2, so `a` is now treated as colliding and mapped to `a-a`
(with the identity digest, `computeHash id "a" = "a"`). -/
def exState2 : PluginState :=
  { chunkMapping := [("assets/a-1111.js", "a-a"), ("a-1111.js", "a-a"), ("a", "a-a")]
    baseNameCounts := [("a", 2)]
    imports := [("a", "/assets/a-1111.js"), ("a-a", "/assets/a-1111.js")] }

/-! ## C9 — per-build state freshness -/

/-- C9 counterexample: the closure state survives between `generateBundle`
invocations.  Running the engine twice on the same one-chunk bundle doubles
the base-name count, so the second run maps the unique name `a` to the
collision-disambiguated specifier `a-a` and grows the import map — the
mapping and table after two runs differ from those after one run. -/
theorem stateFreshness_cx :
    generateBundle exCfg id exParse0 exGenMap0 initialPluginState exBundleA =
      .ok (exState1, exBundleA) ∧
    generateBundle exCfg id exParse0 exGenMap0 exState1 exBundleA =
      .ok (exState2, exBundleA) ∧
    aget exState1.chunkMapping "a" = some "a" ∧
    aget exState2.chunkMapping "a" = some "a-a" ∧
    exState1.imports ≠ exState2.imports ∧
    exState1.baseNameCounts = [("a", 1)] ∧
    exState2.baseNameCounts = [("a", 2)] := by
  decide

/-- C9 (amended): state is plugin-instance-scoped, not build-scoped.  A
fresh `importMapPlugin(...)` instance starts with empty chunk mapping,
base-name counts and import map, but `generateBundle` accumulates on top of
whatever the instance state already holds: the first pass adds the bundle's
script-chunk name multiplicities to the incoming counts instead of
resetting them. -/
theorem stateAccumulates :
    initialPluginState.chunkMapping = [] ∧
    initialPluginState.baseNameCounts = [] ∧
    initialPluginState.imports = [] ∧
    ∀ (counts : NMap) (entries : List (String × OutputChunk)) (n : String),
      countGet (pass1 counts entries) n = countGet counts n + scriptNameCount entries n := by
  exact ⟨rfl, rfl, rfl, fun counts entries n => countGet_pass1 entries counts n⟩

/-! ## C3 — collision disambiguation -/

/-- C3: for a fresh build, a script chunk whose base name occurs exactly
once gets its base name as stable specifier; a colliding base name gets
`baseName-hash(identityKey)` where the identity key is derived from the
facade module id, else the first module id, else the first module-table
key, else the base name alone; colliding chunks whose identity keys hash
differently get distinct specifiers; the specifier depends only on the
base name, the identity source and the count — never on chunk content; and
the digest suffix is 8 characters long whenever the underlying digest is at
least 8 characters long. -/
theorem collisionDisambiguation :
    (∀ (digest : String → String) (entries : List (String × OutputChunk)) (c : OutputChunk),
      scriptNameCount entries c.name = 1 →
      moduleSpecOf digest (pass1 [] entries) c = c.name) ∧
    (∀ (digest : String → String) (entries : List (String × OutputChunk)) (c : OutputChunk),
      1 < scriptNameCount entries c.name →
      moduleSpecOf digest (pass1 [] entries) c =
        c.name ++ "-" ++ computeHash digest (hashInputOf c)) ∧
    (∀ (digest : String → String) (counts : NMap) (c₁ c₂ : OutputChunk),
      c₁.name = c₂.name → 1 < countGet counts c₁.name →
      computeHash digest (hashInputOf c₁) ≠ computeHash digest (hashInputOf c₂) →
      moduleSpecOf digest counts c₁ ≠ moduleSpecOf digest counts c₂) ∧
    (∀ (digest : String → String) (counts₁ counts₂ : NMap) (c₁ c₂ : OutputChunk),
      c₁.name = c₂.name → sourcePathOf c₁ = sourcePathOf c₂ →
      countGet counts₁ c₁.name = countGet counts₂ c₂.name →
      moduleSpecOf digest counts₁ c₁ = moduleSpecOf digest counts₂ c₂) ∧
    (∀ (digest : String → String) (s : String),
      8 ≤ (digest s).data.length → (computeHash digest s).data.length = 8) := by
  refine ⟨?_, ?_, ?_, ?_, ?_⟩
  · intro digest entries c h1
    have hc : countGet (pass1 [] entries) c.name = scriptNameCount entries c.name := by
      rw [countGet_pass1]
      simp [countGet, aget]
    simp [moduleSpecOf, hc, h1]
  · intro digest entries c h1
    have hc : countGet (pass1 [] entries) c.name = scriptNameCount entries c.name := by
      rw [countGet_pass1]
      simp [countGet, aget]
    simp [moduleSpecOf, hc, h1]
  · intro digest counts c₁ c₂ hname hcount hhash heq
    have hcount₂ : 1 < countGet counts c₂.name := hname ▸ hcount
    rw [moduleSpecOf, moduleSpecOf] at heq
    simp only [hcount, hcount₂, if_pos] at heq
    have hdata := congrArg String.data heq
    rw [strData_append, strData_append, strData_append, strData_append, hname] at hdata
    have := List.append_cancel_left hdata
    exact hhash (strExt this)
  · intro digest counts₁ counts₂ c₁ c₂ hname hsp hcnt
    have h1 : hashInputOf c₁ = hashInputOf c₂ := by
      simp [hashInputOf, hsp, hname]
    have hcnt' : countGet counts₁ c₂.name = countGet counts₂ c₂.name := hname ▸ hcnt
    simp [moduleSpecOf, h1, hname, hcnt']
  · intro digest s h
    simp only [computeHash, List.length_take]
    omega

/-- First of the two colliding `utils` chunks (facade `src/a/utils.ts`). -/
def exUtils1 : OutputChunk :=
  ⟨.chunk, "utils", "assets/utils-0001.js", "code1", some "src/a/utils.ts", [], [], none⟩

/-- Second colliding `utils` chunk (facade `src/b/utils.ts`). -/
def exUtils2 : OutputChunk :=
  ⟨.chunk, "utils", "assets/utils-0002.js", "code2", some "src/b/utils.ts", [], [], none⟩

/-- Bundle with the two colliding chunks. -/
def exEntriesUtils : List (String × OutputChunk) :=
  [("assets/utils-0001.js", exUtils1), ("assets/utils-0002.js", exUtils2)]

/-- A chunk with a unique base name. -/
def exSolo : OutputChunk :=
  ⟨.chunk, "app", "assets/app-0001.js", "c", none, ["src/app.ts"], [], none⟩

/-- C3 witness: with the identity function standing in for the digest, the
unique chunk keeps its base name, the colliding `utils` chunks get
`utils-<8-char fingerprint>` specifiers derived from their facade ids, the
two specifiers differ, and the fingerprint has 8 characters. -/
theorem collisionDisambiguation_check :
    moduleSpecOf id (pass1 [] [("assets/app-0001.js", exSolo)]) exSolo = "app" ∧
    moduleSpecOf id (pass1 [] exEntriesUtils) exUtils1 =
      "utils" ++ "-" ++ computeHash id (hashInputOf exUtils1) ∧
    moduleSpecOf id (pass1 [] exEntriesUtils) exUtils1 ≠
      moduleSpecOf id (pass1 [] exEntriesUtils) exUtils2 ∧
    (computeHash id (hashInputOf exUtils1)).data.length = 8 := by
  obtain ⟨ha, hb, hc, _, he⟩ := collisionDisambiguation
  exact ⟨ha id _ exSolo (by decide), hb id _ exUtils1 (by decide),
    hc id _ exUtils1 exUtils2 (by decide) (by decide) (by decide), he id _ (by decide)⟩

/-! ## Rewrite-correctness infrastructure -/

theorem strLength (s : String) : s.length = s.data.length := rfl

theorem strLength_append (a b : String) : (a ++ b).length = a.length + b.length := by
  rw [strLength, strLength, strLength, strData_append, List.length_append]

theorem strStartsWith_empty (p : String) (c : Char) (rest : List Char)
    (hp : p.data = c :: rest) : strStartsWith "" p = false := by
  unfold strStartsWith
  rw [hp]
  rfl

/-- A candidate specifier (one of the three accepted shapes) is nonempty. -/
theorem candidate_ne_empty (assetsDir v : String)
    (hcand : (strStartsWith v "./" || strStartsWith v ("/" ++ assetsDir ++ "/") ||
      strStartsWith v ("./" ++ assetsDir ++ "/")) = true) : v ≠ "" := by
  intro h0
  subst h0
  have h1 : strStartsWith "" "./" = false := by decide
  have h2 : strStartsWith "" ("/" ++ assetsDir ++ "/") = false := by
    refine strStartsWith_empty _ '/' ((assetsDir ++ "/").data) ?_
    rw [strData_append, strData_append]
    rfl
  have h3 : strStartsWith "" ("./" ++ assetsDir ++ "/") = false := by
    refine strStartsWith_empty _ '.' (("/" : String).data ++ (assetsDir ++ "/").data) ?_
    rw [strData_append, strData_append, strData_append]
    rfl
  rw [h1, h2, h3] at hcand
  simp at hcand

/-- Applying `handleImportSource` to a candidate whose bare filename is mapped:
the staged replacement covers exactly the quoted contents
(`source.start + 1` to `source.end - 1`) and substitutes the stable
specifier. -/
theorem handleImportSource_found (assetsDir : String) (mapping : SMap) (kind : RefKind)
    (s e : Nat) (v spec : String)
    (hcand : (strStartsWith v "./" || strStartsWith v ("/" ++ assetsDir ++ "/") ||
      strStartsWith v ("./" ++ assetsDir ++ "/")) = true)
    (hfound : aget mapping (popSegment v) = some spec) :
    handleImportSource assetsDir mapping ⟨kind, some (.literalStr s e v)⟩ =
      some ⟨s + 1, e - 1, spec⟩ := by
  have hv : v ≠ "" := candidate_ne_empty assetsDir v hcand
  have hb : (!strStartsWith v "./" && !strStartsWith v ("/" ++ assetsDir ++ "/") &&
      !strStartsWith v ("./" ++ assetsDir ++ "/")) = false := by
    revert hcand
    cases strStartsWith v "./" <;> cases strStartsWith v ("/" ++ assetsDir ++ "/") <;>
      cases strStartsWith v ("./" ++ assetsDir ++ "/") <;> simp
  simp only [handleImportSource, if_neg hv, hb, Bool.false_eq_true, if_false, hfound]

/-- The walker hands every node with a string-literal source to
`handleImportSource`, whatever its shape. -/
theorem walkOps_single (assetsDir : String) (mapping : SMap) (kind : RefKind)
    (s e : Nat) (v : String) :
    walkOps assetsDir mapping [⟨kind, some (.literalStr s e v)⟩] =
      (handleImportSource assetsDir mapping ⟨kind, some (.literalStr s e v)⟩).toList := by
  cases kind <;>
    cases h : handleImportSource assetsDir mapping ⟨_, some (.literalStr s e v)⟩ <;>
    simp [walkOps, h]

theorem applyOps_single (code : String) (op : RewriteOp) :
    applyOps code [op] = strSplice code op.start op.stop op.replacement := rfl

/-- Splicing a replacement over the middle component of a three-part
concatenation keeps the outer parts intact. -/
theorem strSplice_at (P M S repl : String) :
    strSplice (P ++ M ++ S) P.length (P.length + M.length) repl = P ++ repl ++ S := by
  apply strExt
  have hd : (P ++ M ++ S).data = P.data ++ M.data ++ S.data := by
    rw [strData_append, strData_append]
  have ht : (P ++ M ++ S).data.take P.length = P.data := by
    rw [hd, List.append_assoc, strLength]
    exact List.take_left P.data (M.data ++ S.data)
  have hdr : (P ++ M ++ S).data.drop (P.length + M.length) = S.data := by
    rw [hd]
    have hlen : P.length + M.length = (P.data ++ M.data).length := by
      rw [List.length_append]
      rfl
    rw [hlen]
    exact List.drop_left _ _
  show (P ++ M ++ S).data.take P.length ++ repl.data ++
      (P ++ M ++ S).data.drop (P.length + M.length) = (P ++ repl ++ S).data
  rw [ht, hdr, strData_append, strData_append]

/-- Splicing over the contents of a quoted region replaces exactly the
characters strictly between the quotes. -/
theorem strSplice_quoted (pre inner post repl : String) :
    strSplice (pre ++ "\"" ++ inner ++ "\"" ++ post) (pre.length + 1)
      (pre.length + 1 + inner.length) repl = pre ++ "\"" ++ repl ++ "\"" ++ post := by
  have h1 : pre ++ "\"" ++ inner ++ "\"" ++ post = (pre ++ "\"") ++ inner ++ ("\"" ++ post) := by
    apply strExt
    simp [strData_append, List.append_assoc]
  have h2 : pre ++ "\"" ++ repl ++ "\"" ++ post = (pre ++ "\"") ++ repl ++ ("\"" ++ post) := by
    apply strExt
    simp [strData_append, List.append_assoc]
  have hl : (pre ++ "\"").length = pre.length + 1 := by
    rw [strLength_append]
    rfl
  rw [h1, h2, ← hl]
  exact strSplice_at (pre ++ "\"") inner ("\"" ++ post) repl

/-! ## C2 — reference rewriting correctness -/

/-- C2: a candidate import/re-export/literal-dynamic-import site whose bare
filename is found in the chunk mapping is staged as a replacement of
exactly the quoted-string contents (quote characters excluded) with the
stable specifier; applying the rewrite to a chunk whose code embeds the
specifier between quotes yields the code with exactly that span replaced
and every other character (including the quotes) unchanged. -/
theorem refRewriteExact :
    (∀ (assetsDir : String) (mapping : SMap) (kind : RefKind) (s e : Nat) (v spec : String),
      (strStartsWith v "./" || strStartsWith v ("/" ++ assetsDir ++ "/") ||
        strStartsWith v ("./" ++ assetsDir ++ "/")) = true →
      aget mapping (popSegment v) = some spec →
      handleImportSource assetsDir mapping ⟨kind, some (.literalStr s e v)⟩ =
        some ⟨s + 1, e - 1, spec⟩) ∧
    (∀ (assetsDir : String) (mapping : SMap) (kind : RefKind) (pre inner post spec : String)
        (s e : Nat),
      s = pre.length → e = pre.length + inner.length + 2 →
      (strStartsWith inner "./" || strStartsWith inner ("/" ++ assetsDir ++ "/") ||
        strStartsWith inner ("./" ++ assetsDir ++ "/")) = true →
      aget mapping (popSegment inner) = some spec →
      applyOps (pre ++ "\"" ++ inner ++ "\"" ++ post)
        (walkOps assetsDir mapping [⟨kind, some (.literalStr s e inner)⟩]) =
        pre ++ "\"" ++ spec ++ "\"" ++ post) := by
  constructor
  · intro assetsDir mapping kind s e v spec hcand hfound
    exact handleImportSource_found assetsDir mapping kind s e v spec hcand hfound
  · intro assetsDir mapping kind pre inner post spec s e hs he hcand hfound
    subst hs
    subst he
    rw [walkOps_single, handleImportSource_found assetsDir mapping kind _ _ inner spec hcand hfound]
    have hstop : pre.length + inner.length + 2 - 1 = pre.length + 1 + inner.length := by omega
    show applyOps _ [⟨pre.length + 1, pre.length + inner.length + 2 - 1, spec⟩] = _
    rw [applyOps_single, hstop]
    exact strSplice_quoted pre inner post spec

/-- The mapping of the spec's concrete rewriting example. -/
def exMapping : SMap := [("button-abc123.js", "button")]

/-- The reference site of `import x from "./button-abc123.js"`: the string
literal spans offsets 14–34. -/
def exNode : RefNode := ⟨.importDecl, some (.literalStr 14 34 "./button-abc123.js")⟩

/-- C2 witness: on `import x from "./button-abc123.js"` with the mapping
`button-abc123.js ↦ button`, the rewrite yields exactly
`import x from "button"`. -/
theorem refRewriteExact_check :
    handleImportSource "assets" exMapping exNode = some ⟨15, 33, "button"⟩ ∧
    applyOps "import x from \"./button-abc123.js\"" (walkOps "assets" exMapping [exNode]) =
      "import x from \"button\"" := by
  constructor
  · exact refRewriteExact.1 "assets" exMapping .importDecl 14 34 "./button-abc123.js" "button"
      (by decide) (by decide)
  · exact refRewriteExact.2 "assets" exMapping .importDecl "import x from "
      "./button-abc123.js" "" "button" 14 34 (by decide) (by decide) (by decide) (by decide)

/-! ## Untouched-chunk and pass-4 frame infrastructure -/

/-- A chunk in which the walker stages no rewrite is returned unchanged,
with no rename staged. -/
theorem transformChunk_noRewrites (cfg : PluginConfig) (digest : String → String)
    (parse : String → Except String (List RefNode))
    (genMap : String → String → Option String) (mapping : SMap)
    (fileName : String) (chunk : OutputChunk) (ast : List RefNode)
    (hparse : parse chunk.code = .ok ast)
    (hops : walkOps cfg.assetsDir mapping ast = []) :
    transformChunk cfg digest parse genMap mapping fileName chunk = .ok (chunk, none) := by
  unfold transformChunk
  by_cases hskip : chunk.itemType ≠ .chunk ∨ chunk.code = "" ∨ strEndsWith fileName ".js" = false
  · rw [if_pos hskip]
  · rw [if_neg hskip, hparse]
    simp [hops]

theorem pass4step_bundle_frame (cfg : PluginConfig)
    (st : List (String × OutputChunk) × SMap × SMap) (r : String × String) (K : String)
    (h1 : r.1 ≠ K) (h2 : r.2 ≠ K) :
    aget (pass4step cfg st r).1 K = aget st.1 K := by
  unfold pass4step
  cases hag : aget st.1 r.1 with
  | none => simp [hag]
  | some chunk =>
    by_cases hty : chunk.itemType ≠ .chunk
    · simp [hag, hty]
    · cases hmg : aget st.2.1 (lastSegment r.1) <;>
        simp [hag, hty, hmg, aget_aset_ne _ _ _ _ h2, aget_adel_ne _ _ _ h1]

theorem pass4step_mapGet_frame (cfg : PluginConfig)
    (st : List (String × OutputChunk) × SMap × SMap) (r : String × String) (K : String)
    (h2 : K ≠ r.2) (h2b : K ≠ lastSegment r.2) :
    aget (pass4step cfg st r).2.1 K = aget st.2.1 K := by
  unfold pass4step
  cases hag : aget st.1 r.1 with
  | none => simp [hag]
  | some chunk =>
    by_cases hty : chunk.itemType ≠ .chunk
    · simp [hag, hty]
    · cases hmg : aget st.2.1 (lastSegment r.1) with
      | none => simp [hag, hty, hmg]
      | some spec =>
        by_cases hK : K = lastSegment r.1
        · subst hK
          simp [hag, hty, hmg, aget_aset_self]
        · simp [hag, hty, hmg, aget_aset_ne _ _ _ _ (Ne.symm hK),
            aget_aset_ne _ _ _ _ (Ne.symm h2b), aget_aset_ne _ _ _ _ (Ne.symm h2)]

theorem pass4step_imports_frame (cfg : PluginConfig)
    (st : List (String × OutputChunk) × SMap × SMap) (r : String × String) (S : String)
    (hS : aget st.2.1 (lastSegment r.1) ≠ some S) :
    aget (pass4step cfg st r).2.2 S = aget st.2.2 S := by
  unfold pass4step
  cases hag : aget st.1 r.1 with
  | none => simp [hag]
  | some chunk =>
    by_cases hty : chunk.itemType ≠ .chunk
    · simp [hag, hty]
    · cases hmg : aget st.2.1 (lastSegment r.1) with
      | none => simp [hag, hty, hmg]
      | some spec =>
        have hne : spec ≠ S := by
          intro h
          exact hS (h ▸ hmg)
        simp [hag, hty, hmg, aget_aset_ne _ _ _ _ hne]

theorem pass4_cons (cfg : PluginConfig) (bundle : List (String × OutputChunk))
    (mapping imports : SMap) (r : String × String) (rs : List (String × String)) :
    pass4 cfg bundle mapping imports (r :: rs) =
      pass4 cfg (pass4step cfg (bundle, mapping, imports) r).1
        (pass4step cfg (bundle, mapping, imports) r).2.1
        (pass4step cfg (bundle, mapping, imports) r).2.2 rs := rfl

theorem pass4_bundle_frame (cfg : PluginConfig) (K : String) :
    ∀ (renames : List (String × String)) (bundle : List (String × OutputChunk))
      (mapping imports : SMap),
      (∀ p ∈ renames, p.1 ≠ K ∧ p.2 ≠ K) →
      aget (pass4 cfg bundle mapping imports renames).1 K = aget bundle K := by
  intro renames
  induction renames with
  | nil => intro bundle mapping imports _; rfl
  | cons r rs ih =>
    intro bundle mapping imports H
    rw [pass4_cons]
    rw [ih _ _ _ (fun p hp => H p (List.mem_cons_of_mem r hp))]
    exact pass4step_bundle_frame cfg (bundle, mapping, imports) r K
      (H r (List.mem_cons_self r rs)).1 (H r (List.mem_cons_self r rs)).2

theorem pass4_mapGet_frame (cfg : PluginConfig) (K : String) :
    ∀ (renames : List (String × String)) (bundle : List (String × OutputChunk))
      (mapping imports : SMap),
      (∀ p ∈ renames, K ≠ p.2 ∧ K ≠ lastSegment p.2) →
      aget (pass4 cfg bundle mapping imports renames).2.1 K = aget mapping K := by
  intro renames
  induction renames with
  | nil => intro bundle mapping imports _; rfl
  | cons r rs ih =>
    intro bundle mapping imports H
    rw [pass4_cons]
    rw [ih _ _ _ (fun p hp => H p (List.mem_cons_of_mem r hp))]
    exact pass4step_mapGet_frame cfg (bundle, mapping, imports) r K
      (H r (List.mem_cons_self r rs)).1 (H r (List.mem_cons_self r rs)).2

theorem pass4_imports_frame (cfg : PluginConfig) (S : String) :
    ∀ (renames : List (String × String)) (bundle : List (String × OutputChunk))
      (mapping imports : SMap),
      (∀ p ∈ renames, aget mapping (lastSegment p.1) ≠ some S ∧
        ∀ q ∈ renames, lastSegment p.1 ≠ q.2 ∧ lastSegment p.1 ≠ lastSegment q.2) →
      aget (pass4 cfg bundle mapping imports renames).2.2 S = aget imports S := by
  intro renames
  induction renames with
  | nil => intro bundle mapping imports _; rfl
  | cons r rs ih =>
    intro bundle mapping imports H
    rw [pass4_cons]
    have hstep : ∀ p ∈ rs,
        aget (pass4step cfg (bundle, mapping, imports) r).2.1 (lastSegment p.1) =
          aget mapping (lastSegment p.1) := by
      intro p hp
      have h := (H p (List.mem_cons_of_mem r hp)).2 r (List.mem_cons_self r rs)
      exact pass4step_mapGet_frame cfg (bundle, mapping, imports) r (lastSegment p.1) h.1 h.2
    rw [ih _ _ _ (fun p hp => by
      refine ⟨?_, ?_⟩
      · rw [hstep p hp]
        exact (H p (List.mem_cons_of_mem r hp)).1
      · intro q hq
        exact (H p (List.mem_cons_of_mem r hp)).2 q (List.mem_cons_of_mem r hq))]
    exact pass4step_imports_frame cfg (bundle, mapping, imports) r S
      (H r (List.mem_cons_self r rs)).1

/-! ## C8 — non-candidate preservation -/

/-- C8: a reference site whose specifier is neither relative nor an
assets-directory path stages no rewrite; a dynamic import whose source is
not a string literal is never handed to the rewriter; and a chunk in which
no rewrite is staged keeps its code byte for byte. -/
theorem nonCandidatePreserved :
    (∀ (assetsDir : String) (mapping : SMap) (kind : RefKind) (s e : Nat) (v : String),
      strStartsWith v "./" = false →
      strStartsWith v ("/" ++ assetsDir ++ "/") = false →
      strStartsWith v ("./" ++ assetsDir ++ "/") = false →
      handleImportSource assetsDir mapping ⟨kind, some (.literalStr s e v)⟩ = none) ∧
    (∀ (assetsDir : String) (mapping : SMap),
      walkOps assetsDir mapping [⟨.importExpr, some .other⟩] = [] ∧
      walkOps assetsDir mapping [⟨.importExpr, none⟩] = []) ∧
    (∀ (cfg : PluginConfig) (digest : String → String)
        (parse : String → Except String (List RefNode))
        (genMap : String → String → Option String) (mapping : SMap)
        (fileName : String) (chunk : OutputChunk) (ast : List RefNode),
      parse chunk.code = .ok ast →
      walkOps cfg.assetsDir mapping ast = [] →
      transformChunk cfg digest parse genMap mapping fileName chunk = .ok (chunk, none)) := by
  refine ⟨?_, ?_, ?_⟩
  · intro assetsDir mapping kind s e v h1 h2 h3
    by_cases hv : v = ""
    · simp [handleImportSource, hv]
    · simp [handleImportSource, hv, h1, h2, h3]
  · intro assetsDir mapping
    exact ⟨rfl, rfl⟩
  · intro cfg digest parse genMap mapping fileName chunk ast hparse hops
    exact transformChunk_noRewrites cfg digest parse genMap mapping fileName chunk ast hparse hops

/-- A chunk whose only reference is the bare package import `lodash`. -/
def exLodashChunk : OutputChunk :=
  ⟨.chunk, "vendor", "assets/vendor-1.js", "import \"lodash\";", none, [], [], none⟩

/-- Parse oracle for `exLodashChunk`: one static import of `lodash`
(string literal at offsets 7–15). -/
def exParseLodash : String → Except String (List RefNode) := fun code =>
  if code = "import \"lodash\";" then .ok [⟨.importDecl, some (.literalStr 7 15 "lodash")⟩]
  else .ok []

/-- C8 witness: `import "lodash"` stages no rewrite and the chunk passes
through byte for byte; a computed dynamic-import source is never
inspected. -/
theorem nonCandidatePreserved_check :
    handleImportSource "assets" exMapping ⟨.importDecl, some (.literalStr 7 15 "lodash")⟩ =
      none ∧
    walkOps "assets" exMapping [⟨.importExpr, some .other⟩] = [] ∧
    transformChunk exCfg id exParseLodash exGenMap0 exMapping "assets/vendor-1.js"
      exLodashChunk = .ok (exLodashChunk, none) := by
  refine ⟨?_, ?_, ?_⟩
  · exact nonCandidatePreserved.1 "assets" exMapping .importDecl 7 15 "lodash"
      (by decide) (by decide) (by decide)
  · exact (nonCandidatePreserved.2.1 "assets" exMapping).1
  · exact nonCandidatePreserved.2.2 exCfg id exParseLodash exGenMap0 exMapping
      "assets/vendor-1.js" exLodashChunk [⟨.importDecl, some (.literalStr 7 15 "lodash")⟩]
      (by decide) (by decide)

/-! ## C10 — untouched chunks are fully skipped -/

/-- C10: a script chunk in which no rewrite is staged is skipped by the
rehash/rename machinery — `transformChunk` returns it unchanged (same
code, map and `fileName` field) with no staged rename; and the commit pass
neither moves its bundle entry nor touches its resolution entry, as long
as no staged rename involves its file name or writes its specifier. -/
theorem noRewriteFrame :
    (∀ (cfg : PluginConfig) (digest : String → String)
        (parse : String → Except String (List RefNode))
        (genMap : String → String → Option String) (mapping : SMap)
        (fileName : String) (chunk : OutputChunk) (ast : List RefNode),
      chunk.itemType = .chunk → chunk.code ≠ "" → strEndsWith fileName ".js" = true →
      parse chunk.code = .ok ast →
      walkOps cfg.assetsDir mapping ast = [] →
      transformChunk cfg digest parse genMap mapping fileName chunk = .ok (chunk, none)) ∧
    (∀ (cfg : PluginConfig) (renames : List (String × String))
        (bundle : List (String × OutputChunk)) (mapping imports : SMap) (K : String),
      (∀ p ∈ renames, p.1 ≠ K ∧ p.2 ≠ K) →
      aget (pass4 cfg bundle mapping imports renames).1 K = aget bundle K) ∧
    (∀ (cfg : PluginConfig) (renames : List (String × String))
        (bundle : List (String × OutputChunk)) (mapping imports : SMap) (S : String),
      (∀ p ∈ renames, aget mapping (lastSegment p.1) ≠ some S ∧
        ∀ q ∈ renames, lastSegment p.1 ≠ q.2 ∧ lastSegment p.1 ≠ lastSegment q.2) →
      aget (pass4 cfg bundle mapping imports renames).2.2 S = aget imports S) := by
  refine ⟨?_, ?_, ?_⟩
  · intro cfg digest parse genMap mapping fileName chunk ast _ _ _ hparse hops
    exact transformChunk_noRewrites cfg digest parse genMap mapping fileName chunk ast hparse hops
  · intro cfg renames bundle mapping imports K H
    exact pass4_bundle_frame cfg K renames bundle mapping imports H
  · intro cfg renames bundle mapping imports S H
    exact pass4_imports_frame cfg S renames bundle mapping imports H

/-- A script chunk without any reference sites. -/
def exKeep : OutputChunk :=
  ⟨.chunk, "keep", "assets/keep-1.js", "const x = 1;", none, [], [], none⟩

/-- Another chunk that does get renamed in the C10 witness scenario. -/
def exOther : OutputChunk :=
  ⟨.chunk, "other", "assets/other-1.js", "export {};", none, [], [], none⟩

/-- Bundle of the frame witness. -/
def exFrameBundle : List (String × OutputChunk) :=
  [("assets/keep-1.js", exKeep), ("assets/other-1.js", exOther)]

/-- Mapping of the frame witness. -/
def exFrameMapping : SMap := [("keep-1.js", "keep"), ("other-1.js", "other")]

/-- Imports of the frame witness. -/
def exFrameImports : SMap :=
  [("keep", "/assets/keep-1.js"), ("other", "/assets/other-1.js")]

/-- Renames of the frame witness: only `other` is renamed. -/
def exFrameRenames : List (String × String) := [("assets/other-1.js", "assets/other-2.js")]

/-- C10 witness: the rewrite-free chunk `keep` passes through unchanged,
keeps its bundle entry, and its resolution entry still points at its
original bundler-hashed filename after another chunk's rename commits. -/
theorem noRewriteFrame_check :
    transformChunk exCfg id exParse0 exGenMap0 exFrameMapping "assets/keep-1.js" exKeep =
      .ok (exKeep, none) ∧
    aget (pass4 exCfg exFrameBundle exFrameMapping exFrameImports exFrameRenames).1
      "assets/keep-1.js" = some exKeep ∧
    aget (pass4 exCfg exFrameBundle exFrameMapping exFrameImports exFrameRenames).2.2
      "keep" = some "/assets/keep-1.js" := by
  refine ⟨?_, ?_, ?_⟩
  · exact noRewriteFrame.1 exCfg id exParse0 exGenMap0 exFrameMapping "assets/keep-1.js"
      exKeep [] (by decide) (by decide) (by decide) rfl rfl
  · rw [noRewriteFrame.2.1 exCfg exFrameRenames exFrameBundle exFrameMapping exFrameImports
      "assets/keep-1.js" (by decide)]
    decide
  · rw [noRewriteFrame.2.2 exCfg exFrameRenames exFrameBundle exFrameMapping exFrameImports
      "keep" (by decide)]
    decide

/-! ## C1 — no cascading hash changes -/

/-- C1: a transformed script chunk's staged new filename is
`baseName + '-' + hash + '.js'` where the hash is computed solely from the
chunk's own rewritten, source-map-comment-stripped code; hence two builds
in which the chunk's post-rewrite code and base name agree stage the same
final filename, whatever any other chunk (or the chunk's previous hashed
filename) looked like; and the hash is 8 characters long whenever the
underlying digest is. -/
theorem noCascadeFilename :
    (∀ (cfg : PluginConfig) (digest : String → String)
        (parse : String → Except String (List RefNode))
        (genMap : String → String → Option String) (mapping : SMap)
        (fileName : String) (chunk : OutputChunk) (ast : List RefNode),
      chunk.itemType = .chunk → chunk.code ≠ "" → strEndsWith fileName ".js" = true →
      parse chunk.code = .ok ast →
      walkOps cfg.assetsDir mapping ast ≠ [] →
      transformChunk cfg digest parse genMap mapping fileName chunk = .ok
        ({ chunk with
            code :=
              if chunk.map.isSome then
                replaceMapComment (applyOps chunk.code (walkOps cfg.assetsDir mapping ast))
                  (rehashedFileName digest chunk.name fileName
                    (applyOps chunk.code (walkOps cfg.assetsDir mapping ast)))
              else applyOps chunk.code (walkOps cfg.assetsDir mapping ast)
            map :=
              if chunk.map.isSome then
                match genMap fileName (rehashedFileName digest chunk.name fileName
                    (applyOps chunk.code (walkOps cfg.assetsDir mapping ast))) with
                | some m => some m
                | none => chunk.map
              else chunk.map },
          some (fileName, dirJoin fileName
            (rehashedFileName digest chunk.name fileName
              (applyOps chunk.code (walkOps cfg.assetsDir mapping ast)))))) ∧
    (∀ (digest : String → String) (name f t : String), name ≠ "" →
      rehashedFileName digest name f t =
        name ++ "-" ++ computeHash digest (stripSourceMapComments t) ++ ".js") ∧
    (∀ (digest : String → String) (name f₁ f₂ t₁ t₂ : String), name ≠ "" → t₁ = t₂ →
      rehashedFileName digest name f₁ t₁ = rehashedFileName digest name f₂ t₂) ∧
    (∀ (digest : String → String) (s : String), 8 ≤ (digest s).data.length →
      (computeHash digest s).data.length = 8) := by
  refine ⟨?_, ?_, ?_, ?_⟩
  · intro cfg digest parse genMap mapping fileName chunk ast h1 h2 h3 hparse hops
    unfold transformChunk
    rw [if_neg (by simp [h1, h2, h3]), hparse]
    simp [hops]
  · intro digest name f t hname
    simp [rehashedFileName, hname]
  · intro digest name f₁ f₂ t₁ t₂ hname ht
    subst ht
    simp [rehashedFileName, hname]
  · intro digest s h
    simp only [computeHash, List.length_take]
    omega

/-- The chunk whose import of `button` gets stabilized. -/
def exMainChunk : OutputChunk :=
  ⟨.chunk, "main", "assets/main-1111.js", "import x from \"./button-abc123.js\"",
    some "src/main.ts", [], [], none⟩

/-- Parse oracle for `exMainChunk`'s code: the single static-import site of
`exNode`. -/
def exParseMain : String → Except String (List RefNode) := fun code =>
  if code = "import x from \"./button-abc123.js\"" then .ok [exNode] else .ok []

/-- C1 witness: the staged rename for `exMainChunk` derives from its
rewritten code `import x from "button"` alone (with the identity digest,
the 8-character hash is `import x`), and the hash formula and length
conjuncts hold at this input. -/
theorem noCascadeFilename_check :
    transformChunk exCfg id exParseMain exGenMap0 exMapping "assets/main-1111.js"
      exMainChunk =
      .ok ({ exMainChunk with code := "import x from \"button\"" },
        some ("assets/main-1111.js", "assets/main-import x.js")) ∧
    rehashedFileName id "main" "assets/main-1111.js" "import x from \"button\"" =
      "main" ++ "-" ++
        computeHash id (stripSourceMapComments "import x from \"button\"") ++ ".js" ∧
    (computeHash id "import x from \"button\"").data.length = 8 := by
  refine ⟨?_, ?_, ?_⟩
  · have h := noCascadeFilename.1 exCfg id exParseMain exGenMap0 exMapping
      "assets/main-1111.js" exMainChunk [exNode] (by decide) (by decide) (by decide)
      (by decide) (by decide)
    rw [h]
    decide
  · exact noCascadeFilename.2.1 id "main" "assets/main-1111.js"
      "import x from \"button\"" (by decide)
  · exact noCascadeFilename.2.2.2 id "import x from \"button\"" (by decide)

/-! ## C7 — parse failure aborts the build -/

/-- The third pass propagates the first chunk's parse failure: every
earlier chunk transforms successfully, the failing chunk's error aborts
the whole pass. -/
theorem pass3_error (cfg : PluginConfig) (digest : String → String)
    (parse : String → Except String (List RefNode))
    (genMap : String → String → Option String) (mapping : SMap) :
    ∀ (l₁ : List (String × OutputChunk)) (k : String) (c : OutputChunk)
      (l₂ : List (String × OutputChunk)) (e : String),
      (∀ p ∈ l₁, ∃ out, transformChunk cfg digest parse genMap mapping p.1 p.2 = .ok out) →
      transformChunk cfg digest parse genMap mapping k c = .error e →
      pass3 cfg digest parse genMap mapping (l₁ ++ (k, c) :: l₂) = .error e := by
  intro l₁
  induction l₁ with
  | nil =>
    intro k c l₂ e _ herr
    simp [pass3, herr]
  | cons p l₁ ih =>
    intro k c l₂ e H herr
    obtain ⟨out, hout⟩ := H p (List.mem_cons_self p l₁)
    obtain ⟨pk, pc⟩ := p
    have hrest := ih k c l₂ e (fun q hq => H q (List.mem_cons_of_mem _ hq)) herr
    simp [pass3, hout, hrest]

/-- C7 (amended): a script chunk whose code fails to parse aborts the whole
`generateBundle` hook with the thrown `Error parsing code: <detail>` —
carrying the parser's own detail, though not the offending chunk's
filename — so no resolution table is produced for the aborted build. -/
theorem parseFailureAborts (cfg : PluginConfig) (digest : String → String)
    (parse : String → Except String (List RefNode))
    (genMap : String → String → Option String) (st : PluginState)
    (l₁ : List (String × OutputChunk)) (k : String) (c : OutputChunk)
    (l₂ : List (String × OutputChunk)) (e : String)
    (H : ∀ p ∈ l₁, ∃ out, transformChunk cfg digest parse genMap
      (pass2 cfg digest (pass1 st.baseNameCounts (l₁ ++ (k, c) :: l₂)) st.chunkMapping
        st.imports (l₁ ++ (k, c) :: l₂)).1 p.1 p.2 = .ok out)
    (h1 : c.itemType = .chunk) (h2 : c.code ≠ "")
    (h3 : strEndsWith k ".js" = true)
    (hparse : parse c.code = .error e) :
    generateBundle cfg digest parse genMap st (l₁ ++ (k, c) :: l₂) =
      .error ("Error parsing code: " ++ e) := by
  have herr : transformChunk cfg digest parse genMap
      (pass2 cfg digest (pass1 st.baseNameCounts (l₁ ++ (k, c) :: l₂)) st.chunkMapping
        st.imports (l₁ ++ (k, c) :: l₂)).1 k c = .error ("Error parsing code: " ++ e) := by
    unfold transformChunk
    rw [if_neg (by simp [h1, h2, h3]), hparse]
  have hp3 := pass3_error cfg digest parse genMap _ l₁ k c l₂ _ H herr
  simp [generateBundle, hp3]

/-- A chunk whose code does not parse as a module. -/
def exAppChunk : OutputChunk :=
  ⟨.chunk, "app", "assets/app-XYZ.js", "import x fro", none, [], [], none⟩

/-- Parse oracle failing on `exAppChunk`'s code with an Acorn-style
message (Acorn reports positions, never the chunk's filename). -/
def exParseFail : String → Except String (List RefNode) := fun code =>
  if code = "import x fro" then .error "SyntaxError: Unexpected token (1:12)" else .ok []

/-- Bundle containing the unparsable chunk. -/
def exBadBundle : List (String × OutputChunk) := [("assets/app-XYZ.js", exAppChunk)]

/-- C7 witness: discharging the amended theorem's hypotheses on the
concrete unparsable bundle aborts the hook with the thrown message. -/
theorem parseFailureAborts_check :
    generateBundle exCfg id exParseFail exGenMap0 initialPluginState exBadBundle =
      .error ("Error parsing code: " ++ "SyntaxError: Unexpected token (1:12)") := by
  exact parseFailureAborts exCfg id exParseFail exGenMap0 initialPluginState []
    "assets/app-XYZ.js" exAppChunk [] "SyntaxError: Unexpected token (1:12)"
    (by intro p hp; cases hp) (by decide) (by decide) (by decide) (by decide)

/-- C7 counterexample: the claim additionally asserts the thrown message
identifies the offending chunk, but the message is
`Error parsing code: <parser detail>` and contains neither the chunk's
bundle key nor its bare filename. -/
theorem parseFailureMessage_cx :
    generateBundle exCfg id exParseFail exGenMap0 initialPluginState exBadBundle =
      .error "Error parsing code: SyntaxError: Unexpected token (1:12)" ∧
    containsSeq "app-XYZ.js".data
      "Error parsing code: SyntaxError: Unexpected token (1:12)".data = false ∧
    containsSeq "assets/app-XYZ.js".data
      "Error parsing code: SyntaxError: Unexpected token (1:12)".data = false := by
  decide

/-! ## C4 — post-rewrite internal references -/

/-- The second pass registers all three aliases (bundle key, bare filename,
base name) of a script chunk to its stable specifier, and its resolution
entry. -/
theorem pass2step_registers (cfg : PluginConfig) (digest : String → String)
    (counts : NMap) (m imp : SMap) (k : String) (c : OutputChunk)
    (hscript : isScriptEntry (k, c) = true) :
    aget (pass2step cfg digest counts (m, imp) (k, c)).1 k =
      some (moduleSpecOf digest counts c) ∧
    aget (pass2step cfg digest counts (m, imp) (k, c)).1 (lastSegment k) =
      some (moduleSpecOf digest counts c) ∧
    aget (pass2step cfg digest counts (m, imp) (k, c)).1 c.name =
      some (moduleSpecOf digest counts c) ∧
    aget (pass2step cfg digest counts (m, imp) (k, c)).2 (moduleSpecOf digest counts c) =
      some ((if cfg.useAbsolutePaths then "/" else "./") ++ cfg.assetsDir ++ "/" ++
        lastSegment k) := by
  unfold pass2step
  simp only [hscript, if_true]
  refine ⟨?_, ?_, ?_, ?_⟩
  · by_cases h1 : c.name = k
    · rw [← h1, aget_aset_self]
    · rw [aget_aset_ne _ _ _ _ h1]
      by_cases h2 : lastSegment k = k
      · rw [h2, aget_aset_self]
      · rw [aget_aset_ne _ _ _ _ h2, aget_aset_self]
  · by_cases h1 : c.name = lastSegment k
    · rw [← h1, aget_aset_self]
    · rw [aget_aset_ne _ _ _ _ h1, aget_aset_self]
  · rw [aget_aset_self]
  · rw [aget_aset_self]

/-- C4 (amended): every reference site of the four recognized shapes whose
specifier is in candidate form (relative `./`, or assets-dir absolute or
dotted) and whose bare filename is registered in the chunk mapping is
staged for replacement by the registered stable specifier; the second pass
registers every script chunk's bundle key, bare filename and base name.
Sites in non-candidate form are not inspected, so a reference such as
`../chunk-HASH.js` to a bundle chunk survives the rewrite (see the
counterexample). -/
theorem internalRefsRewritten :
    (∀ (assetsDir : String) (mapping : SMap) (kind : RefKind) (s e : Nat) (v spec : String),
      (strStartsWith v "./" || strStartsWith v ("/" ++ assetsDir ++ "/") ||
        strStartsWith v ("./" ++ assetsDir ++ "/")) = true →
      aget mapping (popSegment v) = some spec →
      walkOps assetsDir mapping [⟨kind, some (.literalStr s e v)⟩] =
        [⟨s + 1, e - 1, spec⟩]) ∧
    (∀ (cfg : PluginConfig) (digest : String → String) (counts : NMap) (m imp : SMap)
        (k : String) (c : OutputChunk),
      isScriptEntry (k, c) = true →
      aget (pass2step cfg digest counts (m, imp) (k, c)).1 k =
        some (moduleSpecOf digest counts c) ∧
      aget (pass2step cfg digest counts (m, imp) (k, c)).1 (lastSegment k) =
        some (moduleSpecOf digest counts c) ∧
      aget (pass2step cfg digest counts (m, imp) (k, c)).1 c.name =
        some (moduleSpecOf digest counts c)) := by
  constructor
  · intro assetsDir mapping kind s e v spec hcand hfound
    rw [walkOps_single, handleImportSource_found assetsDir mapping kind s e v spec hcand hfound]
    rfl
  · intro cfg digest counts m imp k c hscript
    obtain ⟨h1, h2, h3, _⟩ := pass2step_registers cfg digest counts m imp k c hscript
    exact ⟨h1, h2, h3⟩

/-- C4 witness: the candidate site of the button example is staged for
replacement by the registered specifier, and pass 2 registers the button
chunk's aliases. -/
theorem internalRefsRewritten_check :
    walkOps "assets" exMapping [exNode] = [⟨15, 33, "button"⟩] ∧
    aget (pass2step exCfg id [("button", 1)] ([], []) ("assets/button-abc123.js",
      ⟨.chunk, "button", "assets/button-abc123.js", "export {};", none, [], [], none⟩)).1
      "button-abc123.js" = some "button" := by
  constructor
  · exact internalRefsRewritten.1 "assets" exMapping .importDecl 14 34
      "./button-abc123.js" "button" (by decide) (by decide)
  · have h := (internalRefsRewritten.2 exCfg id [("button", 1)] [] []
      "assets/button-abc123.js"
      ⟨.chunk, "button", "assets/button-abc123.js", "export {};", none, [], [], none⟩
      (by decide)).2.1
    have hseg : lastSegment "assets/button-abc123.js" = "button-abc123.js" := by decide
    rw [hseg] at h
    rw [h]
    decide

/-- The chunk whose code references `button` through a `../` specifier —
a form the rewriter never inspects. -/
def exC4Main : OutputChunk :=
  ⟨.chunk, "main", "assets/main-AAAA.js", "import \"../button-BBBB.js\";",
    some "src/main.ts", [], [], none⟩

/-- The referenced bundle chunk, served under its hashed filename. -/
def exC4Button : OutputChunk :=
  ⟨.chunk, "button", "assets/button-BBBB.js", "export const b = 1;",
    some "src/button.ts", [], [], none⟩

/-- Bundle of the C4 counterexample. -/
def exC4Bundle : List (String × OutputChunk) :=
  [("assets/main-AAAA.js", exC4Main), ("assets/button-BBBB.js", exC4Button)]

/-- The static-import site of `exC4Main`: string literal at offsets 7–26
with value `../button-BBBB.js`. -/
def exC4Node : RefNode := ⟨.importDecl, some (.literalStr 7 26 "../button-BBBB.js")⟩

/-- Parse oracle for the C4 counterexample bundle. -/
def exParseC4 : String → Except String (List RefNode) := fun code =>
  if code = "import \"../button-BBBB.js\";" then .ok [exC4Node] else .ok []

/-- The plugin state the C4 counterexample run produces. -/
def exC4State : PluginState :=
  { chunkMapping := [("assets/main-AAAA.js", "main"), ("main-AAAA.js", "main"),
      ("main", "main"), ("assets/button-BBBB.js", "button"),
      ("button-BBBB.js", "button"), ("button", "button")]
    baseNameCounts := [("main", 1), ("button", 1)]
    imports := [("main", "/assets/main-AAAA.js"), ("button", "/assets/button-BBBB.js")] }

/-- C4 counterexample: after the whole `generateBundle` run, `exC4Main`'s
code still contains the literal static-import specifier
`../button-BBBB.js`, whose bare filename is exactly the hashed filename of
the bundle chunk `button` (still present in the bundle and registered in
the mapping) — the rewriter skipped the site because `../` is not a
candidate form. -/
theorem internalRefs_remaining_cx :
    generateBundle exCfg id exParseC4 exGenMap0 initialPluginState exC4Bundle =
      .ok (exC4State, exC4Bundle) ∧
    aget exC4Bundle "assets/main-AAAA.js" = some exC4Main ∧
    handleImportSource exCfg.assetsDir exC4State.chunkMapping exC4Node = none ∧
    popSegment "../button-BBBB.js" = lastSegment "assets/button-BBBB.js" ∧
    aget exC4State.chunkMapping "button-BBBB.js" = some "button" ∧
    aget exC4Bundle "assets/button-BBBB.js" = some exC4Button ∧
    containsSeq "button-BBBB.js".data exC4Main.code.data = true := by
  decide

/-! ## C5 — rename commit and final resolution table -/

/-- Explicit form of one committed rename when the staged old name is a
chunk of the bundle and its bare filename resolves in the mapping. -/
theorem pass4step_commit (cfg : PluginConfig)
    (st : List (String × OutputChunk) × SMap × SMap) (old new : String)
    (c : OutputChunk) (spec : String)
    (hb : aget st.1 old = some c) (hc : c.itemType = .chunk)
    (hm : aget st.2.1 (lastSegment old) = some spec) :
    pass4step cfg st (old, new) =
      (aset (adel st.1 old) new { c with fileName := new },
       aset (aset (aset st.2.1 new spec) (lastSegment new) spec) (lastSegment old) spec,
       aset st.2.2 spec ((if cfg.useAbsolutePaths then "/" else "./") ++ cfg.assetsDir ++
         "/" ++ lastSegment new)) := by
  unfold pass4step
  simp [hb, hc, hm]

/-- C5: a staged rename `old → new` commits as the claim describes: after
the fourth pass the bundle holds the chunk under `new` with its `fileName`
field set to `new` and no longer holds it under `old`; the resolution
entry for the chunk's stable specifier is the configured path prefix plus
`assetsDir` plus the new bare filename; and the old bare-filename alias
still resolves in the chunk mapping.  The hypotheses say the other staged
renames do not collide with this one (distinct old/new keys, bare
filenames and specifiers), which holds for real rename batches. -/
theorem renameCommit (cfg : PluginConfig) (bundle : List (String × OutputChunk))
    (mapping imports : SMap) (r₁ r₂ : List (String × String)) (old new : String)
    (c : OutputChunk) (spec : String)
    (hb : aget bundle old = some c)
    (hc : c.itemType = .chunk)
    (hm : aget mapping (lastSegment old) = some spec)
    (hon : old ≠ new)
    (h5 : ∀ p ∈ r₁ ++ r₂, p.1 ≠ old ∧ p.2 ≠ old ∧ p.1 ≠ new ∧ p.2 ≠ new)
    (h6 : ∀ p ∈ r₁ ++ r₂, lastSegment old ≠ p.2 ∧ lastSegment old ≠ lastSegment p.2)
    (h7 : ∀ p ∈ r₂, aget mapping (lastSegment p.1) ≠ some spec)
    (h8 : ∀ p ∈ r₂, lastSegment p.1 ≠ new ∧ lastSegment p.1 ≠ lastSegment new)
    (h9 : ∀ p ∈ r₂, ∀ q ∈ r₁, lastSegment p.1 ≠ q.2 ∧ lastSegment p.1 ≠ lastSegment q.2)
    (h10 : ∀ p ∈ r₂, ∀ q ∈ r₂, lastSegment p.1 ≠ q.2 ∧ lastSegment p.1 ≠ lastSegment q.2) :
    aget (pass4 cfg bundle mapping imports (r₁ ++ (old, new) :: r₂)).1 new =
      some { c with fileName := new } ∧
    aget (pass4 cfg bundle mapping imports (r₁ ++ (old, new) :: r₂)).1 old = none ∧
    aget (pass4 cfg bundle mapping imports (r₁ ++ (old, new) :: r₂)).2.2 spec =
      some ((if cfg.useAbsolutePaths then "/" else "./") ++ cfg.assetsDir ++ "/" ++
        lastSegment new) ∧
    aget (pass4 cfg bundle mapping imports (r₁ ++ (old, new) :: r₂)).2.1 (lastSegment old) =
      some spec := by
  have happ : pass4 cfg bundle mapping imports (r₁ ++ (old, new) :: r₂) =
      pass4 cfg (pass4 cfg bundle mapping imports r₁).1
        (pass4 cfg bundle mapping imports r₁).2.1
        (pass4 cfg bundle mapping imports r₁).2.2 ((old, new) :: r₂) := by
    unfold pass4
    rw [List.foldl_append]
  set st1 := pass4 cfg bundle mapping imports r₁ with hst1
  have hB1 : aget st1.1 old = some c := by
    rw [hst1, pass4_bundle_frame cfg old r₁ bundle mapping imports
      (fun p hp => ⟨(h5 p (List.mem_append_left r₂ hp)).1,
        (h5 p (List.mem_append_left r₂ hp)).2.1⟩)]
    exact hb
  have hM1 : aget st1.2.1 (lastSegment old) = some spec := by
    rw [hst1, pass4_mapGet_frame cfg (lastSegment old) r₁ bundle mapping imports
      (fun p hp => h6 p (List.mem_append_left r₂ hp))]
    exact hm
  have hstep : pass4step cfg (st1.1, st1.2.1, st1.2.2) (old, new) =
      (aset (adel st1.1 old) new { c with fileName := new },
       aset (aset (aset st1.2.1 new spec) (lastSegment new) spec) (lastSegment old) spec,
       aset st1.2.2 spec ((if cfg.useAbsolutePaths then "/" else "./") ++ cfg.assetsDir ++
         "/" ++ lastSegment new)) :=
    pass4step_commit cfg (st1.1, st1.2.1, st1.2.2) old new c spec hB1 hc hM1
  have hall : pass4 cfg bundle mapping imports (r₁ ++ (old, new) :: r₂) =
      pass4 cfg (aset (adel st1.1 old) new { c with fileName := new })
        (aset (aset (aset st1.2.1 new spec) (lastSegment new) spec) (lastSegment old) spec)
        (aset st1.2.2 spec ((if cfg.useAbsolutePaths then "/" else "./") ++ cfg.assetsDir ++
          "/" ++ lastSegment new)) r₂ := by
    rw [happ, pass4_cons, hstep]
  have hmapalias : ∀ p ∈ r₂,
      aget (aset (aset (aset st1.2.1 new spec) (lastSegment new) spec)
        (lastSegment old) spec) (lastSegment p.1) = aget mapping (lastSegment p.1) := by
    intro p hp
    have hpo : lastSegment p.1 ≠ lastSegment old := by
      intro h
      exact h7 p hp (h ▸ hm)
    rw [aget_aset_ne _ _ _ _ (Ne.symm hpo),
      aget_aset_ne _ _ _ _ (Ne.symm (h8 p hp).2),
      aget_aset_ne _ _ _ _ (Ne.symm (h8 p hp).1), hst1,
      pass4_mapGet_frame cfg (lastSegment p.1) r₁ bundle mapping imports
        (fun q hq => h9 p hp q hq)]
  refine ⟨?_, ?_, ?_, ?_⟩
  · rw [hall, pass4_bundle_frame cfg new r₂ _ _ _
      (fun p hp => ⟨(h5 p (List.mem_append_right r₁ hp)).2.2.1,
        (h5 p (List.mem_append_right r₁ hp)).2.2.2⟩)]
    exact aget_aset_self _ _ _
  · rw [hall, pass4_bundle_frame cfg old r₂ _ _ _
      (fun p hp => ⟨(h5 p (List.mem_append_right r₁ hp)).1,
        (h5 p (List.mem_append_right r₁ hp)).2.1⟩)]
    rw [aget_aset_ne _ _ _ _ (Ne.symm hon)]
    exact aget_adel_self _ _
  · rw [hall, pass4_imports_frame cfg spec r₂ _ _ _
      (fun p hp => ⟨by
        rw [hmapalias p hp]
        exact h7 p hp,
        fun q hq => h10 p hp q hq⟩)]
    exact aget_aset_self _ _ _
  · rw [hall, pass4_mapGet_frame cfg (lastSegment old) r₂ _ _ _
      (fun p hp => h6 p (List.mem_append_right r₁ hp))]
    exact aget_aset_self _ _ _

/-- Chunk renamed by the witness's target rename. -/
def exChA : OutputChunk := ⟨.chunk, "a", "assets/a-A.js", "import \"x\";", none, [], [], none⟩

/-- Chunk renamed by the witness's other staged rename. -/
def exChB : OutputChunk := ⟨.chunk, "b", "assets/b-B.js", "import \"y\";", none, [], [], none⟩

/-- Bundle of the C5 witness. -/
def exC5Bundle : List (String × OutputChunk) :=
  [("assets/a-A.js", exChA), ("assets/b-B.js", exChB)]

/-- Chunk mapping of the C5 witness. -/
def exC5Mapping : SMap := [("a-A.js", "a"), ("b-B.js", "b")]

/-- Import map of the C5 witness before the commit pass. -/
def exC5Imports : SMap := [("a", "/assets/a-A.js"), ("b", "/assets/b-B.js")]

/-- The other staged rename, committed before the target one. -/
def exC5R1 : List (String × String) := [("assets/b-B.js", "assets/b-M.js")]

/-- C5 witness: committing the batch `b-B → b-M, a-A → a-N` moves chunk `a`
to its new key with `fileName` updated, removes the old key, repoints the
resolution entry of `a` at `/assets/a-N.js`, and keeps the old bare-name
alias in the mapping. -/
theorem renameCommit_check :
    aget (pass4 exCfg exC5Bundle exC5Mapping exC5Imports
      (exC5R1 ++ ("assets/a-A.js", "assets/a-N.js") :: [])).1 "assets/a-N.js" =
      some { exChA with fileName := "assets/a-N.js" } ∧
    aget (pass4 exCfg exC5Bundle exC5Mapping exC5Imports
      (exC5R1 ++ ("assets/a-A.js", "assets/a-N.js") :: [])).1 "assets/a-A.js" = none ∧
    aget (pass4 exCfg exC5Bundle exC5Mapping exC5Imports
      (exC5R1 ++ ("assets/a-A.js", "assets/a-N.js") :: [])).2.2 "a" =
      some "/assets/a-N.js" ∧
    aget (pass4 exCfg exC5Bundle exC5Mapping exC5Imports
      (exC5R1 ++ ("assets/a-A.js", "assets/a-N.js") :: [])).2.1 "a-A.js" = some "a" := by
  have h := renameCommit exCfg exC5Bundle exC5Mapping exC5Imports exC5R1 []
    "assets/a-A.js" "assets/a-N.js" exChA "a" (by decide) (by decide) (by decide)
    (by decide) (by decide) (by decide) (by decide) (by decide) (by decide) (by decide)
  obtain ⟨hA, hB, hC, hD⟩ := h
  refine ⟨by rw [hA], by rw [hB], ?_, ?_⟩
  · rw [hC]
    decide
  · have hseg : lastSegment "assets/a-A.js" = "a-A.js" := by decide
    rw [hseg] at hD
    rw [hD]

/-! ## C6 — resolution-table ordering -/

theorem charListLe_total : ∀ a b : List Char, charListLe a b = true ∨ charListLe b a = true := by
  intro a
  induction a with
  | nil => intro b; left; rfl
  | cons x xs ih =>
    intro b
    cases b with
    | nil => right; rfl
    | cons y ys =>
      by_cases h1 : x < y
      · left
        simp [charListLe, h1]
      · by_cases h2 : y < x
        · right
          simp [charListLe, h2]
        · rcases ih ys with h | h
          · left
            simp [charListLe, h1, h2, h]
          · right
            simp [charListLe, h1, h2, h]

theorem charListLe_trans : ∀ a b c : List Char,
    charListLe a b = true → charListLe b c = true → charListLe a c = true := by
  intro a
  induction a with
  | nil => intro b c _ _; rfl
  | cons x xs ih =>
    intro b c hab hbc
    cases b with
    | nil => simp [charListLe] at hab
    | cons y ys =>
      cases c with
      | nil => simp [charListLe] at hbc
      | cons z zs =>
        simp only [charListLe] at hab hbc ⊢
        by_cases h1 : x < y
        · by_cases h2 : y < z
          · simp [lt_trans h1 h2]
          · by_cases h3 : z < y
            · simp [h2, h3] at hbc
            · have hyz : y = z := le_antisymm (le_of_not_lt h3) (le_of_not_lt h2)
              subst hyz
              simp [h1]
        · by_cases h1b : y < x
          · simp [h1, h1b] at hab
          · have hxy : x = y := le_antisymm (le_of_not_lt h1b) (le_of_not_lt h1)
            subst hxy
            simp [lt_irrefl] at hab
            by_cases h2 : x < z
            · simp [h2]
            · by_cases h3 : z < x
              · simp [h2, h3] at hbc
              · simp [h2, h3] at hbc ⊢
                exact ih ys zs hab hbc

theorem keysSortedBy_cons_of (le : String → String → Bool) (p : String × String) (l : SMap)
    (h1 : keysSortedBy le l = true)
    (h2 : ∀ q, l.head? = some q → le p.1 q.1 = true) :
    keysSortedBy le (p :: l) = true := by
  cases l with
  | nil => rfl
  | cons q l => simp [keysSortedBy, h1, h2 q rfl]

theorem keysSortedBy_cons_elim (le : String → String → Bool) (p : String × String) (l : SMap)
    (h : keysSortedBy le (p :: l) = true) :
    keysSortedBy le l = true ∧ ∀ q, l.head? = some q → le p.1 q.1 = true := by
  cases l with
  | nil => exact ⟨rfl, by intro q hq; cases hq⟩
  | cons q l =>
    simp only [keysSortedBy, Bool.and_eq_true] at h
    refine ⟨h.2, ?_⟩
    intro q' hq'
    cases hq'
    exact h.1

theorem insertByB_head {α : Type} (lt : α → α → Bool) (x : α) (l : List α) :
    ∀ q, (insertByB lt x l).head? = some q → q = x ∨ l.head? = some q := by
  cases l with
  | nil =>
    intro q hq
    cases hq
    exact Or.inl rfl
  | cons b bs =>
    intro q hq
    by_cases h : lt b x = true
    · simp [insertByB, h] at hq
      refine Or.inr ?_
      rw [hq]
      rfl
    · simp [insertByB, h] at hq
      exact Or.inl hq.symm

theorem keysSortedBy_insertByB (lc : String → String → Int)
    (Hlc : ∀ a b, lc a b < 0 ↔ lexLe b a = false) :
    ∀ (l : SMap) (x : String × String), keysSortedBy lexLe l = true →
      keysSortedBy lexLe (insertByB (fun a b => decide (lc a.1 b.1 < 0)) x l) = true := by
  intro l
  induction l with
  | nil => intro x _; rfl
  | cons b bs ih =>
    intro x hs
    obtain ⟨hs1, hs2⟩ := keysSortedBy_cons_elim lexLe b bs hs
    by_cases hbx : lc b.1 x.1 < 0
    · have hfalse : lexLe x.1 b.1 = false := (Hlc b.1 x.1).mp hbx
      have hlex_bx : lexLe b.1 x.1 = true := by
        rcases charListLe_total b.1.data x.1.data with h | h
        · exact h
        · unfold lexLe at hfalse
          rw [h] at hfalse
          cases hfalse
      have hins : insertByB (fun a b => decide (lc a.1 b.1 < 0)) x (b :: bs) =
          b :: insertByB (fun a b => decide (lc a.1 b.1 < 0)) x bs := by
        simp [insertByB, hbx]
      rw [hins]
      refine keysSortedBy_cons_of lexLe b _ (ih x hs1) ?_
      intro q hq
      rcases insertByB_head _ x bs q hq with h | h
      · rw [h]
        exact hlex_bx
      · exact hs2 q h
    · have hlex_xb : lexLe x.1 b.1 = true := by
        have := (Hlc b.1 x.1).not.mp hbx
        cases hxb : lexLe x.1 b.1
        · exact absurd hxb this
        · rfl
      have hins : insertByB (fun a b => decide (lc a.1 b.1 < 0)) x (b :: bs) =
          x :: b :: bs := by
        simp [insertByB, hbx]
      rw [hins]
      refine keysSortedBy_cons_of lexLe x (b :: bs) hs ?_
      intro q hq
      cases hq
      exact hlex_xb

theorem insertByB_perm {α : Type} (lt : α → α → Bool) (x : α) :
    ∀ l : List α, (insertByB lt x l).Perm (x :: l) := by
  intro l
  induction l with
  | nil => exact List.Perm.refl _
  | cons b bs ih =>
    by_cases h : lt b x = true
    · have hins : insertByB lt x (b :: bs) = b :: insertByB lt x bs := by
        simp [insertByB, h]
      rw [hins]
      exact (ih.cons b).trans (List.Perm.swap x b bs)
    · have hins : insertByB lt x (b :: bs) = x :: b :: bs := by
        simp [insertByB, h]
      rw [hins]

theorem sortByB_perm {α : Type} (lt : α → α → Bool) :
    ∀ l : List α, (sortByB lt l).Perm l := by
  intro l
  induction l with
  | nil => exact List.Perm.refl _
  | cons x xs ih =>
    have : sortByB lt (x :: xs) = insertByB lt x (sortByB lt xs) := rfl
    rw [this]
    exact (insertByB_perm lt x (sortByB lt xs)).trans (ih.cons x)

/-- C6 (amended): the emitted table is the stable sort of the import-map
entries under the host's `localeCompare` comparator; whenever that
comparator agrees with the locale-independent code-point order `lexLe` on
strings, the emitted keys are in ascending lexicographic order — for every
entry list, i.e. regardless of the chunk processing order that built it —
and the emitted entries are a permutation of the built ones.  The
comparator itself is locale-sensitive, so agreement with `lexLe` is a
hypothesis, not a fact of the code (see the counterexample). -/
theorem tableSortedByComparator (lc : String → String → Int)
    (Hlc : ∀ a b, lc a b < 0 ↔ lexLe b a = false) (imports : SMap) :
    keysSortedBy lexLe (transformIndexHtml lc imports) = true ∧
    (transformIndexHtml lc imports).Perm imports := by
  constructor
  · induction imports with
    | nil => rfl
    | cons x l ih =>
      exact keysSortedBy_insertByB lc Hlc (sortEntries lc l) x ih
  · exact sortByB_perm _ imports

/-- A comparator that agrees with code-point order (a model of
`localeCompare` in a byte-order collation). -/
def exLcAgree : String → String → Int := fun a b => if lexLe b a = true then 0 else -1

/-- Import-map entries arriving in non-sorted order. -/
def exC6Entries : SMap := [("b", "/assets/b-1.js"), ("a", "/assets/a-1.js")]

/-- C6 witness: under a code-point-agreeing comparator the emitted table of
`exC6Entries` is lexicographically sorted and a permutation of the input. -/
theorem tableSortedByComparator_check :
    keysSortedBy lexLe (transformIndexHtml exLcAgree exC6Entries) = true ∧
    (transformIndexHtml exLcAgree exC6Entries).Perm exC6Entries := by
  refine tableSortedByComparator exLcAgree ?_ exC6Entries
  intro a b
  by_cases h : lexLe b a = true
  · simp [exLcAgree, h]
  · simp [exLcAgree, h]

/-- A comparator behaving like the default-locale `localeCompare` on the
keys `a` and `A`: ICU collations place lowercase before uppercase, so
`"a".localeCompare("A") < 0`, while code-point order has `A < a`. -/
def exLocaleCompare : String → String → Int := fun a b =>
  if a = b then 0 else if a = "a" then -1 else 1

/-- C6 counterexample: with the locale-style comparator the emitted keys
are `a, A`, which is not ascending under the locale-independent
code-point order — the code sorts with the locale-sensitive
`localeCompare`, so the claimed locale-independent ordering fails. -/
theorem tableOrdering_cx :
    transformIndexHtml exLocaleCompare [("A", "/assets/A-1.js"), ("a", "/assets/a-1.js")] =
      [("a", "/assets/a-1.js"), ("A", "/assets/A-1.js")] ∧
    keysSortedBy lexLe [("a", "/assets/a-1.js"), ("A", "/assets/A-1.js")] = false := by
  decide

end VitePluginImportMap
